import Mathlib

/-!
Shallow embedding of the async-chain combinator library
(`src/include/async.hpp`, with the legacy variant `src/async.hpp` embedded
where the two differ), together with theorems settling the specification
claims.

Modelling conventions:
* C++ `Result<T,E>` (two `std::optional` fields) becomes a structure with two
  `Option` fields; `Result<void,E>` becomes `ResultVoid`.
* Steps, continuations and the scheduler are continuation-passing functions
  polymorphic in an answer type `M`.  Instantiating `M` with a list of
  `Event`s (a trace) lets theorems observe which steps were invoked, with
  which inputs, and what the terminal callback received.
* The chain's heterogeneous tuple of holders becomes a list of `Wrapper`s
  over a fixed value/error type pair; the holders' control flow is
  transcribed verbatim from `Holder::call`, `CatcherHolder::call`,
  `RetryHolder::call`/`run_step` and `RetryDelayedHolder::call`/`run_step`.
* The mutable global `global_scheduler` is passed explicitly: `Wrapper.call`
  receives the scheduler in effect, and for claims about re-registration the
  answer type `M` is itself a function of the installed scheduler id, so that
  a step can hand a different id to its continuation (modelling a
  `setScheduler` call made while the chain is suspended).
-/

set_option linter.unusedVariables false

namespace AsyncChainModel

/-- `Result<T,E>` from `src/include/async.hpp` lines 24-40 (identical in
`src/async.hpp` lines 23-42): two independent optional fields. -/
structure Result (T E : Type) where
  error : Option E
  value : Option T
deriving DecidableEq, Repr

namespace Result

/-- `Result::Ok`: error empty, value set. -/
def Ok (val : T) : Result T E := ⟨none, some val⟩

/-- `Result::Err`: error set, value empty. -/
def Err (err : E) : Result T E := ⟨some err, none⟩

/-- `Result::is_ok`: whether the value field is engaged. -/
def is_ok (r : Result T E) : Bool := r.value.isSome

/-- `Result::is_err`: whether the error field is engaged. -/
def is_err (r : Result T E) : Bool := r.error.isSome

end Result

/-- `Result<void,E>` specialization (`src/include/async.hpp` lines 42-50):
only an error field; `is_ok` is the negation of `is_err`. -/
structure ResultVoid (E : Type) where
  error : Option E
deriving DecidableEq, Repr

namespace ResultVoid

/-- `Result<void,E>::Ok`. -/
def Ok : ResultVoid E := ⟨none⟩

/-- `Result<void,E>::Err`. -/
def Err (err : E) : ResultVoid E := ⟨some err⟩

/-- `Result<void,E>::is_ok`. -/
def is_ok (r : ResultVoid E) : Bool := !r.error.isSome

/-- `Result<void,E>::is_err`. -/
def is_err (r : ResultVoid E) : Bool := r.error.isSome

end ResultVoid

/-- A continuation (`NextType<T,E>`): consumes a `Result` and yields the rest
of the computation, at answer type `M`. -/
abbrev Cont (T E M : Type) := Result T E → M

/-- `StepType<T,E>`: a step invoked with a continuation and an input
`Result` (the shape `Holder` and `CatcherHolder` invoke). -/
abbrev StepType (T E M : Type) := Cont T E M → Result T E → M

/-- The step shape `RetryHolder`/`RetryDelayedHolder` actually invoke:
a continuation and a 0-based attempt index. -/
abbrev StepAttType (T E M : Type) := Cont T E M → Nat → M

/-- `SchedulerFunction`: accepts a deferred action and a delay in ms. -/
abbrev SchedulerFunction (M : Type) := (Unit → M) → Nat → M

/-- `Holder::call` (`src/include/async.hpp` lines 80-92): on an error input
forward it to the continuation untouched; otherwise invoke the step with a
forwarding continuation and the input result. -/
def Holder.call (step : StepType T E M) (continue_chain : Cont T E M)
    (result : Result T E) : M :=
  if result.is_err then continue_chain result
  else step (fun next_result => continue_chain next_result) result

/-- `CatcherHolder::call` (`src/include/async.hpp` lines 106-118, same logic
in `src/async.hpp` lines 118-134): on an error input invoke the step with
the failing result; on a success input forward it untouched. -/
def CatcherHolder.call (step : StepType T E M) (continue_chain : Cont T E M)
    (result : Result T E) : M :=
  if result.is_err then
    step (fun recovered_result => continue_chain recovered_result) result
  else continue_chain result

/-- `RetryHolder::run_step` (`src/include/async.hpp` lines 143-155, same in
`src/async.hpp` lines 194-210): invoke the step with the attempt index; in
the step's continuation, forward a success or an exhausted (attempt ≥
MaxRetries) result, otherwise re-invoke with attempt+1. -/
def RetryHolder.run_step (MaxRetries : Nat) (step : StepAttType T E M)
    (continue_chain : Cont T E M) (attempt : Nat) : M :=
  step
    (fun result =>
      if h : result.is_ok = true ∨ MaxRetries ≤ attempt then
        continue_chain result
      else
        RetryHolder.run_step MaxRetries step continue_chain (attempt + 1))
    attempt
termination_by MaxRetries + 1 - attempt
decreasing_by simp only [not_or, not_le] at h; omega

/-- `RetryHolder::call` (`src/include/async.hpp` lines 131-138): forward an
error input untouched; on success start `run_step` at attempt 0. -/
def RetryHolder.call (MaxRetries : Nat) (step : StepAttType T E M)
    (continue_chain : Cont T E M) (result : Result T E) : M :=
  if result.is_err then continue_chain result
  else RetryHolder.run_step MaxRetries step continue_chain 0

/-- `RetryDelayedHolder::run_step` (`src/include/async.hpp` lines 180-197):
like `RetryHolder::run_step`, but a retryable failure submits the re-attempt
to the scheduler (`global_scheduler`, here passed explicitly) with the
per-wrapper delay instead of re-invoking immediately. -/
def RetryDelayedHolder.run_step (sched : SchedulerFunction M)
    (MaxRetries DelayMs : Nat) (step : StepAttType T E M)
    (next : Cont T E M) (attempt : Nat) : M :=
  step
    (fun result =>
      if h : result.is_ok = true ∨ MaxRetries ≤ attempt then
        next result
      else
        sched
          (fun _ =>
            RetryDelayedHolder.run_step sched MaxRetries DelayMs step next
              (attempt + 1))
          DelayMs)
    attempt
termination_by MaxRetries + 1 - attempt
decreasing_by simp only [not_or, not_le] at h; omega

/-- `RetryDelayedHolder::call` (`src/include/async.hpp` lines 168-175). -/
def RetryDelayedHolder.call (sched : SchedulerFunction M)
    (MaxRetries DelayMs : Nat) (step : StepAttType T E M)
    (continue_chain : Cont T E M) (result : Result T E) : M :=
  if result.is_err then continue_chain result
  else RetryDelayedHolder.run_step sched MaxRetries DelayMs step continue_chain 0

/-- One element of the chain's holder tuple: which of the four holder kinds
it is, its policy parameters, and its step. -/
inductive Wrapper (T E M : Type) where
  | direct (step : StepType T E M)
  | catcher (step : StepType T E M)
  | retry (MaxRetries : Nat) (step : StepAttType T E M)
  | retryDelayed (MaxRetries DelayMs : Nat) (step : StepAttType T E M)

/-- Dispatch to the holder's `call`; only `retryDelayed` consults the
installed scheduler, mirroring that only `RetryDelayedHolder` reads
`global_scheduler`. -/
def Wrapper.call (sched : SchedulerFunction M) :
    Wrapper T E M → Cont T E M → Result T E → M
  | .direct step, k, r => Holder.call step k r
  | .catcher step, k, r => CatcherHolder.call step k r
  | .retry m step, k, r => RetryHolder.call m step k r
  | .retryDelayed m d step, k, r => RetryDelayedHolder.call sched m d step k r

/-- `AsyncChain::call_steps` (`src/include/async.hpp` lines 257-277): past
the last holder, invoke the final callback with the running result;
otherwise hand the current holder a continuation that resumes the fold at
the next index. -/
def call_steps (sched : SchedulerFunction M) (steps : List (Wrapper T E M))
    (final_callback : Cont T E M) (result : Result T E) : M :=
  match steps with
  | [] => final_callback result
  | holder :: rest =>
      Wrapper.call sched holder
        (fun next_result => call_steps sched rest final_callback next_result)
        result

/-- `AsyncChain::finally` (`src/include/async.hpp` lines 247-252): seed the
fold with `Result<T,E>::Ok(T{})` — a success holding a default-constructed
value — and run `call_steps` from index 0. -/
def finallyRun [Inhabited T] (sched : SchedulerFunction M)
    (steps : List (Wrapper T E M)) (final_callback : Cont T E M) : M :=
  call_steps sched steps final_callback (Result.Ok default)

/-- `setScheduler` (`src/include/async.hpp` lines 20-22, `src/async.hpp`
lines 14-17): overwrite the global scheduler slot (`none` models the
default-constructed empty `std::function`). -/
def setScheduler (global_scheduler : Option (SchedulerFunction M))
    (scheduler : SchedulerFunction M) : Option (SchedulerFunction M) :=
  some scheduler

namespace Smart

/-- `Holder::call` from the legacy header `src/async.hpp` (lines 54-64,
primary template; the reference specialization at lines 76-87 is
identical): on a success input the step is invoked with ONLY the forwarding
continuation — the prior result is not passed to it. -/
def Holder.call (step : Cont T E M → M) (continue_chain : Cont T E M)
    (result : Result T E) : M :=
  if result.is_err then continue_chain result
  else step (fun next_result => continue_chain next_result)

end Smart

/-! ## Observable events

Instantiating the answer type `M` with `Trace` (a list of events) makes step
invocations, scheduler submissions and the terminal callback observable. -/

/-- Observable events of one chain execution. -/
inductive Event (T E : Type) where
  /-- a step was invoked with a `Result` input (tagged with the step's id) -/
  | stepRes (tag : Nat) (input : Result T E)
  /-- a retry-aware step was invoked with an attempt index -/
  | stepAtt (tag : Nat) (attempt : Nat)
  /-- the scheduler was invoked with a delay -/
  | sched (delayMs : Nat)
  /-- the scheduler with identity `sid` was invoked with a delay -/
  | schedSubmit (sid : Nat) (delayMs : Nat)
  /-- the terminal callback was invoked with a result -/
  | final (r : Result T E)
deriving DecidableEq, Repr

/-- A trace of observable events. -/
abbrev Trace (T E : Type) := List (Event T E)

/-- Whether an event is a terminal-callback invocation. -/
def Event.isFinal : Event T E → Bool
  | .final _ => true
  | _ => false

/-- Whether an event is a scheduler invocation. -/
def Event.isSched : Event T E → Bool
  | .sched _ => true
  | _ => false

/-- A contract-abiding step observed in the trace: it logs its invocation
(with its input) and invokes its continuation exactly once, with
`f input`. -/
def resStep (tag : Nat) (f : Result T E → Result T E) :
    StepType T E (Trace T E) :=
  fun next r => Event.stepRes tag r :: next (f r)

/-- A contract-abiding always-succeeding step: logs its invocation and
invokes its continuation exactly once with `Ok (g input)`. -/
def okStep (tag : Nat) (g : Result T E → T) : StepType T E (Trace T E) :=
  fun next r => Event.stepRes tag r :: next (Result.Ok (g r))

/-- A contract-abiding retry-aware step: logs the attempt index it was
invoked with and invokes its continuation exactly once with `f attempt`. -/
def attStep (tag : Nat) (f : Nat → Result T E) : StepAttType T E (Trace T E) :=
  fun next attempt => Event.stepAtt tag attempt :: next (f attempt)

/-- A terminal callback that records the result it receives. -/
def finalCB : Cont T E (Trace T E) := fun r => [Event.final r]

/-- The test double used by the repository's tests (`test_async.cpp`,
`setScheduler([](task, delay){ task(); })`): run the deferred action
immediately — instrumented to log the submission. -/
def immediateSched : SchedulerFunction (Trace T E) :=
  fun action delayMs => Event.sched delayMs :: action ()

/-- A contract-abiding always-failing step: logs its invocation and invokes
its continuation exactly once with `Err e`. -/
def errStep (tag : Nat) (e : E) : StepType T E (Trace T E) :=
  fun next r => Event.stepRes tag r :: next (Result.Err e)

/-- A chain segment of Direct wrappers around logging, always-succeeding
steps (tags counting up from `i`), as built by repeated `then` calls. -/
def directChainFrom (i : Nat) (gs : List (Result T E → T)) :
    List (Wrapper T E (Trace T E)) :=
  match gs with
  | [] => []
  | g :: rest => Wrapper.direct (okStep i g) :: directChainFrom (i + 1) rest

/-- `directChainFrom` starting at tag 0. -/
def directChain (gs : List (Result T E → T)) : List (Wrapper T E (Trace T E)) :=
  directChainFrom 0 gs

/-- The running Outcome after feeding `r` through the succeeding steps
`gs` in order: each step turns the accumulator `acc` into `Ok (g acc)`. -/
def chainOutputs (gs : List (Result T E → T)) (r : Result T E) : Result T E :=
  gs.foldl (fun acc g => Result.Ok (g acc)) r

/-- The step-invocation events produced by feeding `r` through
`directChainFrom i gs`: step `i` sees `r`, step `i+1` sees `Ok (g r)`, … -/
def directTrace (i : Nat) (gs : List (Result T E → T)) (r : Result T E) :
    Trace T E :=
  match gs with
  | [] => []
  | g :: rest => Event.stepRes i r :: directTrace (i + 1) rest (Result.Ok (g r))

/-- Whether a wrapper is a Catch wrapper. -/
def Wrapper.isCatcher : Wrapper T E M → Bool
  | .catcher _ => true
  | _ => false

/-- Whether no wrapper in the list is a Catch wrapper. -/
def allNonCatch (ws : List (Wrapper T E M)) : Bool :=
  ws.all fun w => !w.isCatcher

/-- Number of attempts `RetryHolder::run_step` makes when started at
`attempt` with per-attempt results `f`: it stops after the first attempt
that succeeds or reaches the bound, hence the result counts the final
attempt index plus one. -/
def attemptsFrom (f : Nat → Result T E) (MaxRetries attempt : Nat) : Nat :=
  if (f attempt).is_ok = true ∨ MaxRetries ≤ attempt then attempt + 1
  else attemptsFrom f MaxRetries (attempt + 1)
termination_by MaxRetries + 1 - attempt
decreasing_by simp only [not_or, not_le] at *; omega

/-- The trace produced by `RetryDelayedHolder::run_step` under the
immediate scheduler, starting at `attempt`: each retry is preceded by one
scheduler submission carrying the per-wrapper delay. -/
def delayedTraceFrom (tag DelayMs : Nat) (f : Nat → Result T E)
    (MaxRetries attempt : Nat) : Trace T E :=
  if (f attempt).is_ok = true ∨ MaxRetries ≤ attempt then
    [Event.stepAtt tag attempt]
  else
    Event.stepAtt tag attempt :: Event.sched DelayMs ::
      delayedTraceFrom tag DelayMs f MaxRetries (attempt + 1)
termination_by MaxRetries + 1 - attempt
decreasing_by simp only [not_or, not_le] at *; omega

/-! ## Compile-time type bookkeeping of the chain builder

The builder operations act on the chain's template parameters
`AsyncChain<T, E, StepHolders...>`.  `ChainSig` reflects those parameters
as data: the declared value type, the declared error type, and the ordered
wrapper kinds. -/

/-- Names of C++ types, reflected as data so that type-parameter equations
of the builder can be stated. -/
inductive Ty where
  | int
  | str
  | float
  | custom (n : Nat)
deriving DecidableEq, Repr

/-- The kind of one appended wrapper (its policy parameters included). -/
inductive WrapperKind where
  | direct
  | catcher
  | retry (MaxRetries : Nat)
  | retryDelayed (MaxRetries DelayMs : Nat)
deriving DecidableEq, Repr

/-- The template parameters of an `AsyncChain<T, E, StepHolders...>`
value, reflected as data. -/
structure ChainSig where
  T : Ty
  E : Ty
  wrappers : List WrapperKind
deriving DecidableEq, Repr

/-- `initAsyncChain<T,E>` (`src/include/async.hpp` lines 280-283): an empty
chain over declared value type `T` and error type `E`. -/
def initChainSig (T E : Ty) : ChainSig := ⟨T, E, []⟩

/-- `AsyncChain::then` (`src/include/async.hpp` lines 218-223): returns
`AsyncChain<T, E, StepHolders..., Holder<Step>>` — the declared value and
error types are carried over unchanged.  `stepOut` records the appended
step's output type, which the return type does not use. -/
def ChainSig.thenDirect (c : ChainSig) (stepOut : Ty) : ChainSig :=
  ⟨c.T, c.E, c.wrappers ++ [.direct]⟩

/-- `AsyncChain::thenWithRetry` (`src/include/async.hpp` lines 225-230):
declared value and error types carried over unchanged. -/
def ChainSig.thenWithRetry (c : ChainSig) (MaxRetries : Nat) (stepOut : Ty) :
    ChainSig :=
  ⟨c.T, c.E, c.wrappers ++ [.retry MaxRetries]⟩

/-- `AsyncChain::catchError` (`src/include/async.hpp` lines 232-237):
declared value and error types carried over unchanged. -/
def ChainSig.catchError (c : ChainSig) : ChainSig :=
  ⟨c.T, c.E, c.wrappers ++ [.catcher]⟩

/-- `AsyncChain::thenWithRetryDelayed` (`src/include/async.hpp` lines
239-245): declared value and error types carried over unchanged. -/
def ChainSig.thenWithRetryDelayed (c : ChainSig) (MaxRetries DelayMs : Nat)
    (stepOut : Ty) : ChainSig :=
  ⟨c.T, c.E, c.wrappers ++ [.retryDelayed MaxRetries DelayMs]⟩

/-- `AsyncChainSmart::then<NewT>` (`src/async.hpp` lines 361-367): returns
`AsyncChainSmart<NewT, E, ...>` — the declared value type becomes the
caller-supplied template argument `NewT`. -/
def ChainSig.thenSmart (c : ChainSig) (NewT : Ty) : ChainSig :=
  ⟨NewT, c.E, c.wrappers ++ [.direct]⟩

/-- `AsyncChainSmart::thenWithRetry<MaxRetries, NewT>` (`src/async.hpp`
lines 369-375). -/
def ChainSig.thenWithRetrySmart (c : ChainSig) (MaxRetries : Nat)
    (NewT : Ty) : ChainSig :=
  ⟨NewT, c.E, c.wrappers ++ [.retry MaxRetries]⟩

/-- `AsyncChainSmart::catchError` (`src/async.hpp` lines 377-383):
declared value and error types carried over unchanged. -/
def ChainSig.catchErrorSmart (c : ChainSig) : ChainSig :=
  ⟨c.T, c.E, c.wrappers ++ [.catcher]⟩

/-- `AsyncChainSmart::thenWithRetryDelayed<MaxRetries, DelayMs, NewT>`
(`src/async.hpp` lines 385-391). -/
def ChainSig.thenWithRetryDelayedSmart (c : ChainSig)
    (MaxRetries DelayMs : Nat) (NewT : Ty) : ChainSig :=
  ⟨NewT, c.E, c.wrappers ++ [.retryDelayed MaxRetries DelayMs]⟩

/-! ## Concrete probes for counterexamples and witnesses -/

/-- A step that invokes its continuation with its own input (legal at
answer type `Result Nat Nat`): whatever the wrapper passed as input comes
back out. -/
def echoStep : StepType Nat Nat (Result Nat Nat) := fun next r => next r

/-- A step of the legacy `src/async.hpp` Direct shape (continuation only,
no input parameter): it can only produce a constant. -/
def constStep : Cont Nat Nat (Result Nat Nat) → Result Nat Nat :=
  fun next => next (Result.Ok 0)

/-- Answer type for scheduler-replacement scenarios: a computation reads
the id of the currently installed scheduler (the content of the mutable
global `global_scheduler`) and yields a trace. -/
abbrev SchedState (T E : Type) := Nat → Trace T E

/-- The dereference of `global_scheduler` at submission time: the
submission event records the id of the scheduler installed at the moment
the deferred action is submitted, then (immediate test double) runs the
action under that same state. -/
def readingSched : SchedulerFunction (SchedState T E) :=
  fun action delayMs => fun sid => Event.schedSubmit sid delayMs :: action () sid

/-- A retry-aware step that, on attempt 0, calls `setScheduler` while the
wrapper is in flight — modelled by handing its continuation the state `2`
(the id of the newly installed scheduler) — and fails; on any later
attempt it succeeds without touching the scheduler slot. -/
def switchingStep : StepAttType Nat Nat (SchedState Nat Nat) :=
  fun next attempt =>
    if attempt = 0 then fun _ => Event.stepAtt 0 attempt :: next (Result.Err 1) 2
    else fun sid => Event.stepAtt 0 attempt :: next (Result.Ok 9) sid

/-- A terminal callback at the state-reading answer type. -/
def statefulFinal : Cont Nat Nat (SchedState Nat Nat) :=
  fun r => fun _ => [Event.final r]

/-- A concrete recovery function for witnesses. -/
def recover0 : Result Nat Nat → Result Nat Nat := fun _ => Result.Ok 5

/-- A concrete step-output function for witnesses. -/
def plus1 : Result Nat Nat → Nat := fun r => (r.value.getD 0) + 1

/-- Concrete succeeding prefix for the C2 witness: one Direct step. -/
def gsW : List (Result Nat Nat → Nat) := [plus1]

/-- Concrete non-Catch suffix for the C2 witness: a Retry wrapper and a
Direct wrapper, both holding logging steps. -/
def wsW : List (Wrapper Nat Nat (Trace Nat Nat)) :=
  [Wrapper.retry 2 (attStep 5 fun _ => Result.Err 3),
   Wrapper.direct (okStep 6 fun _ => 0)]

/-- A retry-aware result function that fails on every attempt. -/
def errAlways : Nat → Result Nat Nat := fun _ => Result.Err 3

/-- Exactly one of the two query results holds. -/
def exclusiveExhaustive (ok err : Bool) : Prop :=
  (ok = true ∧ err = false) ∨ (ok = false ∧ err = true)

instance (ok err : Bool) : Decidable (exclusiveExhaustive ok err) := by
  unfold exclusiveExhaustive; infer_instance

/-! ## Basic facts about `Result` and traces -/

@[simp]
theorem Result.is_err_Ok (v : T) : (Result.Ok (E := E) v).is_err = false := rfl

@[simp]
theorem Result.is_ok_Ok (v : T) : (Result.Ok (E := E) v).is_ok = true := rfl

@[simp]
theorem Result.is_err_Err (e : E) : (Result.Err (T := T) e).is_err = true := rfl

@[simp]
theorem Result.is_ok_Err (e : E) : (Result.Err (T := T) e).is_ok = false := rfl

@[simp]
theorem Event.isSched_stepRes (tag : Nat) (r : Result T E) :
    (Event.stepRes tag r).isSched = false := rfl

@[simp]
theorem Event.isSched_stepAtt (tag a : Nat) :
    (Event.stepAtt (T := T) (E := E) tag a).isSched = false := rfl

@[simp]
theorem Event.isSched_sched (d : Nat) :
    (Event.sched (T := T) (E := E) d).isSched = true := rfl

@[simp]
theorem Event.isSched_schedSubmit (sid d : Nat) :
    (Event.schedSubmit (T := T) (E := E) sid d).isSched = false := rfl

@[simp]
theorem Event.isSched_final (r : Result T E) :
    (Event.final r).isSched = false := rfl

theorem chainOutputs_cons (g : Result T E → T) (gs : List (Result T E → T))
    (r : Result T E) :
    chainOutputs (g :: gs) r = chainOutputs gs (Result.Ok (g r)) := rfl

theorem chainOutputs_append (gs hs : List (Result T E → T)) (r : Result T E) :
    chainOutputs (gs ++ hs) r = chainOutputs hs (chainOutputs gs r) := by
  simp [chainOutputs, List.foldl_append]

theorem chainOutputs_is_err (gs : List (Result T E → T)) (r : Result T E)
    (hr : r.is_err = false) : (chainOutputs gs r).is_err = false := by
  induction gs generalizing r with
  | nil => exact hr
  | cons g rest ih => rw [chainOutputs_cons]; exact ih _ rfl

/-- Fold lemma: a prefix of Direct wrappers around succeeding steps logs
each step invocation (with the running Outcome as its input) and hands the
folded output to the remainder of the chain. -/
theorem call_steps_direct_prefix (sched : SchedulerFunction (Trace T E))
    (gs : List (Result T E → T)) (i : Nat)
    (tail : List (Wrapper T E (Trace T E))) (k : Cont T E (Trace T E))
    (r : Result T E) (hr : r.is_err = false) :
    call_steps sched (directChainFrom i gs ++ tail) k r
      = directTrace i gs r ++ call_steps sched tail k (chainOutputs gs r) := by
  induction gs generalizing i r with
  | nil => simp [directChainFrom, directTrace, chainOutputs]
  | cons g rest ih =>
      simp only [directChainFrom, List.cons_append, call_steps, Wrapper.call,
        Holder.call, hr, Bool.false_eq_true, if_false, okStep, directTrace,
        chainOutputs_cons, List.append_eq]
      rw [ih (i + 1) (Result.Ok (g r)) rfl]

/-- Short-circuit: an error Outcome passes a run of non-Catch wrappers
without invoking any of their steps and reaches the continuation
unchanged. -/
theorem call_steps_err_skip (sched : SchedulerFunction M)
    (ws : List (Wrapper T E M)) (k : Cont T E M) (r : Result T E)
    (hw : allNonCatch ws = true) (hr : r.is_err = true) :
    call_steps sched ws k r = k r := by
  induction ws with
  | nil => rfl
  | cons w rest ih =>
      simp only [allNonCatch, List.all_cons, Bool.and_eq_true,
        Bool.not_eq_true'] at hw
      obtain ⟨hw1, hw2⟩ := hw
      cases w with
      | direct step =>
          simp only [call_steps, Wrapper.call, Holder.call, hr, if_true]
          exact ih hw2
      | catcher step => simp [Wrapper.isCatcher] at hw1
      | retry m step =>
          simp only [call_steps, Wrapper.call, RetryHolder.call, hr, if_true]
          exact ih hw2
      | retryDelayed m d step =>
          simp only [call_steps, Wrapper.call, RetryDelayedHolder.call, hr,
            if_true]
          exact ih hw2

theorem directTrace_filter_isFinal (i : Nat) (gs : List (Result T E → T))
    (r : Result T E) :
    (directTrace i gs r).filter Event.isFinal = [] := by
  induction gs generalizing i r with
  | nil => rfl
  | cons g rest ih => simp [directTrace, Event.isFinal, ih]

/-- C1: a chain of N Direct-wrapped steps, each of which invokes its
continuation exactly once with a success Outcome, driven by `finally`:
the full trace is the N step invocations followed by exactly one terminal
invocation, and the Outcome the terminal callback receives is the Nth
step's output `Ok (g …)` applied to the running Outcome reaching it. -/
theorem direct_chain_terminal_once [Inhabited T]
    (gs : List (Result T E → T)) (g : Result T E → T) :
    finallyRun immediateSched (directChain (gs ++ [g])) finalCB
      = directTrace 0 (gs ++ [g]) (Result.Ok default)
        ++ [Event.final (Result.Ok (g (chainOutputs gs (Result.Ok default))))]
    ∧ (finallyRun immediateSched (directChain (gs ++ [g])) finalCB).filter
        Event.isFinal
      = [Event.final (Result.Ok (g (chainOutputs gs (Result.Ok default))))] := by
  have hout : chainOutputs (gs ++ [g]) (Result.Ok (default : T))
      = Result.Ok (g (chainOutputs gs (Result.Ok default))) := by
    rw [chainOutputs_append]; rfl
  have h : finallyRun immediateSched (directChain (gs ++ [g])) finalCB
      = directTrace 0 (gs ++ [g]) (Result.Ok default)
        ++ [Event.final (Result.Ok (g (chainOutputs gs (Result.Ok default))))] := by
    have := call_steps_direct_prefix (T := T) (E := E) immediateSched
      (gs ++ [g]) 0 [] finalCB (Result.Ok default) rfl
    rw [List.append_nil] at this
    rw [finallyRun, directChain, this, hout]
    rfl
  refine ⟨h, ?_⟩
  rw [h, List.filter_append, directTrace_filter_isFinal]
  rfl

/-- C2: if the step at position k emits an error Outcome and only
non-Catch wrappers (Direct, Retry, RetryDelayed — with arbitrary steps)
follow it, the trace contains no event from any later wrapper's step, and
the terminal callback is invoked exactly once, with step k's error Outcome
unchanged. -/
theorem error_skips_rest [Inhabited T] (gs : List (Result T E → T)) (e : E)
    (ws : List (Wrapper T E (Trace T E))) (hw : allNonCatch ws = true) :
    finallyRun immediateSched
        (directChain gs ++ Wrapper.direct (errStep gs.length e) :: ws) finalCB
      = directTrace 0 gs (Result.Ok default)
        ++ [Event.stepRes gs.length (chainOutputs gs (Result.Ok default)),
            Event.final (Result.Err e)] := by
  rw [finallyRun, directChain,
    call_steps_direct_prefix immediateSched gs 0 _ finalCB (Result.Ok default) rfl]
  have hok : (chainOutputs gs (Result.Ok (default : T))).is_err = false :=
    chainOutputs_is_err gs _ rfl
  simp only [call_steps, Wrapper.call, Holder.call, hok, Bool.false_eq_true,
    if_false, errStep]
  rw [call_steps_err_skip immediateSched ws _ (Result.Err e) hw rfl]
  rfl

/-- Witness for C2 at a concrete chain: one succeeding step, a failing
step, then a Retry wrapper and a Direct wrapper that are never invoked. -/
theorem error_skips_rest_witness :
    allNonCatch wsW = true
    ∧ finallyRun immediateSched
        (directChain gsW ++ Wrapper.direct (errStep gsW.length 7) :: wsW) finalCB
      = directTrace 0 gsW (Result.Ok default)
        ++ [Event.stepRes gsW.length (chainOutputs gsW (Result.Ok default)),
            Event.final (Result.Err 7)] :=
  ⟨rfl, error_skips_rest gsW 7 wsW rfl⟩

/-! ## Retry counting -/

theorem attemptsFrom_lt (f : Nat → Result T E) (MaxRetries attempt : Nat) :
    attempt < attemptsFrom f MaxRetries attempt := by
  by_cases hc : (f attempt).is_ok = true ∨ MaxRetries ≤ attempt
  · rw [attemptsFrom, if_pos hc]; omega
  · rw [attemptsFrom, if_neg hc]
    have h2 := attemptsFrom_lt f MaxRetries (attempt + 1)
    omega
termination_by MaxRetries + 1 - attempt
decreasing_by simp only [not_or, not_le] at hc; omega

theorem attemptsFrom_le (f : Nat → Result T E) (MaxRetries attempt : Nat)
    (h : attempt ≤ MaxRetries) :
    attemptsFrom f MaxRetries attempt ≤ MaxRetries + 1 := by
  by_cases hc : (f attempt).is_ok = true ∨ MaxRetries ≤ attempt
  · rw [attemptsFrom, if_pos hc]; omega
  · rw [attemptsFrom, if_neg hc]
    refine attemptsFrom_le f MaxRetries (attempt + 1) ?_
    simp only [not_or, not_le] at hc
    omega
termination_by MaxRetries + 1 - attempt
decreasing_by simp only [not_or, not_le] at hc; omega

theorem attemptsFrom_not_ok (f : Nat → Result T E) (MaxRetries attempt j : Nat)
    (hj : attempt ≤ j) (hlt : j + 1 < attemptsFrom f MaxRetries attempt) :
    (f j).is_ok = false := by
  by_cases hc : (f attempt).is_ok = true ∨ MaxRetries ≤ attempt
  · rw [attemptsFrom, if_pos hc] at hlt
    exfalso; omega
  · rw [attemptsFrom, if_neg hc] at hlt
    rcases Nat.eq_or_lt_of_le hj with heq | hlt2
    · simp only [not_or, Bool.not_eq_true] at hc
      exact heq ▸ hc.1
    · exact attemptsFrom_not_ok f MaxRetries (attempt + 1) j hlt2 hlt
termination_by MaxRetries + 1 - attempt
decreasing_by simp only [not_or, not_le] at hc; omega

theorem attemptsFrom_last (f : Nat → Result T E) (MaxRetries attempt : Nat)
    (h : attempt ≤ MaxRetries) :
    (f (attemptsFrom f MaxRetries attempt - 1)).is_ok = true
    ∨ attemptsFrom f MaxRetries attempt = MaxRetries + 1 := by
  by_cases hc : (f attempt).is_ok = true ∨ MaxRetries ≤ attempt
  · rw [attemptsFrom, if_pos hc]
    simp only [Nat.add_sub_cancel]
    rcases hc with hok | hexh
    · exact Or.inl hok
    · right; omega
  · rw [attemptsFrom, if_neg hc]
    refine attemptsFrom_last f MaxRetries (attempt + 1) ?_
    simp only [not_or, not_le] at hc
    omega
termination_by MaxRetries + 1 - attempt
decreasing_by simp only [not_or, not_le] at hc; omega

/-- The trace of `RetryHolder::run_step` around a contract-abiding step:
one invocation per attempt index from `attempt` up to the stopping
attempt, then the stopping attempt's Outcome handed to the
continuation. -/
theorem run_step_trace (f : Nat → Result T E) (tag MaxRetries : Nat)
    (k : Cont T E (Trace T E)) (attempt : Nat) :
    RetryHolder.run_step MaxRetries (attStep tag f) k attempt
      = (List.range' attempt (attemptsFrom f MaxRetries attempt - attempt)).map
          (Event.stepAtt tag)
        ++ k (f (attemptsFrom f MaxRetries attempt - 1)) := by
  by_cases hc : (f attempt).is_ok = true ∨ MaxRetries ≤ attempt
  · rw [RetryHolder.run_step, attemptsFrom, if_pos hc]
    simp only [attStep, dif_pos hc, Nat.add_sub_cancel,
      Nat.add_sub_cancel_left, List.range'_one, List.map_cons, List.map_nil,
      List.cons_append, List.nil_append]
  · rw [RetryHolder.run_step, attemptsFrom, if_neg hc]
    simp only [attStep, dif_neg hc]
    rw [run_step_trace f tag MaxRetries k (attempt + 1)]
    have hlt := attemptsFrom_lt f MaxRetries (attempt + 1)
    have hA : attemptsFrom f MaxRetries (attempt + 1) - attempt
        = (attemptsFrom f MaxRetries (attempt + 1) - (attempt + 1)) + 1 := by
      omega
    rw [hA, List.range'_succ]
    simp
termination_by MaxRetries + 1 - attempt
decreasing_by simp only [not_or, not_le] at hc; omega

/-- C3: a Retry wrapper with bound `MaxRetries` on a success input invokes
its step once per attempt index `0, 1, 2, …` (strictly increasing), making
between 1 and `MaxRetries + 1` attempts, stopping at the first success
(every earlier attempt failed) or at exhaustion, and forwards the stopping
attempt's Outcome — on exhaustion, the last attempt's error — onward. -/
theorem retry_attempt_semantics (f : Nat → Result T E) (tag MaxRetries : Nat)
    (v : T) :
    RetryHolder.call MaxRetries (attStep tag f) finalCB (Result.Ok v)
      = (List.range (attemptsFrom f MaxRetries 0)).map (Event.stepAtt tag)
        ++ [Event.final (f (attemptsFrom f MaxRetries 0 - 1))]
    ∧ 1 ≤ attemptsFrom f MaxRetries 0
    ∧ attemptsFrom f MaxRetries 0 ≤ MaxRetries + 1
    ∧ ((List.range (attemptsFrom f MaxRetries 0 - 1)).all
        fun j => !(f j).is_ok) = true
    ∧ ((f (attemptsFrom f MaxRetries 0 - 1)).is_ok = true
       ∨ attemptsFrom f MaxRetries 0 = MaxRetries + 1) := by
  refine ⟨?_, ?_, ?_, ?_, ?_⟩
  · rw [RetryHolder.call]
    simp only [Result.is_err_Ok, Bool.false_eq_true, if_false]
    rw [run_step_trace f tag MaxRetries finalCB 0, List.range_eq_range']
    simp [finalCB]
  · have := attemptsFrom_lt f MaxRetries 0; omega
  · exact attemptsFrom_le f MaxRetries 0 (Nat.zero_le _)
  · rw [List.all_eq_true]
    intro j hj
    rw [List.mem_range] at hj
    simp only [Bool.not_eq_eq_eq_not, Bool.not_true]
    exact attemptsFrom_not_ok f MaxRetries 0 j (Nat.zero_le _) (by omega)
  · exact attemptsFrom_last f MaxRetries 0 (Nat.zero_le _)

/-! ## Delayed retry under the immediate scheduler -/

/-- The trace of `RetryDelayedHolder::run_step` under the immediate
scheduler: like `RetryHolder::run_step` but with one scheduler submission
(carrying the wrapper's delay) before each retry. -/
theorem run_step_delayed_trace (f : Nat → Result T E)
    (tag MaxRetries DelayMs : Nat) (k : Cont T E (Trace T E)) (attempt : Nat) :
    RetryDelayedHolder.run_step immediateSched MaxRetries DelayMs
        (attStep tag f) k attempt
      = delayedTraceFrom tag DelayMs f MaxRetries attempt
        ++ k (f (attemptsFrom f MaxRetries attempt - 1)) := by
  by_cases hc : (f attempt).is_ok = true ∨ MaxRetries ≤ attempt
  · rw [RetryDelayedHolder.run_step, delayedTraceFrom, attemptsFrom,
      if_pos hc, if_pos hc]
    simp [attStep, dif_pos hc]
  · rw [RetryDelayedHolder.run_step, delayedTraceFrom, attemptsFrom,
      if_neg hc, if_neg hc]
    simp only [attStep, dif_neg hc, immediateSched]
    rw [run_step_delayed_trace f tag MaxRetries DelayMs k (attempt + 1)]
    simp
termination_by MaxRetries + 1 - attempt
decreasing_by simp only [not_or, not_le] at hc; omega

theorem delayedTraceFrom_filter_not_sched (tag DelayMs : Nat)
    (f : Nat → Result T E) (MaxRetries attempt : Nat) :
    (delayedTraceFrom tag DelayMs f MaxRetries attempt).filter
        (fun e => !e.isSched)
      = (List.range' attempt (attemptsFrom f MaxRetries attempt - attempt)).map
          (Event.stepAtt tag) := by
  by_cases hc : (f attempt).is_ok = true ∨ MaxRetries ≤ attempt
  · rw [delayedTraceFrom, attemptsFrom, if_pos hc, if_pos hc]
    simp [Event.isSched, List.range'_one]
  · rw [delayedTraceFrom, attemptsFrom, if_neg hc, if_neg hc]
    simp only [List.filter_cons, Event.isSched_stepAtt, Event.isSched_sched,
      Bool.not_false, Bool.not_true, Bool.false_eq_true, if_false, if_true,
      reduceIte]
    rw [delayedTraceFrom_filter_not_sched tag DelayMs f MaxRetries (attempt + 1)]
    have hlt := attemptsFrom_lt f MaxRetries (attempt + 1)
    have hA : attemptsFrom f MaxRetries (attempt + 1) - attempt
        = (attemptsFrom f MaxRetries (attempt + 1) - (attempt + 1)) + 1 := by
      omega
    rw [hA, List.range'_succ]
    simp
termination_by MaxRetries + 1 - attempt
decreasing_by simp only [not_or, not_le] at hc; omega

theorem delayedTraceFrom_filter_sched (tag DelayMs : Nat)
    (f : Nat → Result T E) (MaxRetries attempt : Nat) :
    (delayedTraceFrom tag DelayMs f MaxRetries attempt).filter
        (fun e => e.isSched)
      = List.replicate (attemptsFrom f MaxRetries attempt - (attempt + 1))
          (Event.sched DelayMs) := by
  by_cases hc : (f attempt).is_ok = true ∨ MaxRetries ≤ attempt
  · rw [delayedTraceFrom, attemptsFrom, if_pos hc, if_pos hc]
    simp [Event.isSched]
  · rw [delayedTraceFrom, attemptsFrom, if_neg hc, if_neg hc]
    simp only [List.filter_cons, Event.isSched_stepAtt, Event.isSched_sched,
      Bool.false_eq_true, if_false, if_true, reduceIte]
    rw [delayedTraceFrom_filter_sched tag DelayMs f MaxRetries (attempt + 1)]
    have hlt := attemptsFrom_lt f MaxRetries (attempt + 1)
    have hA : attemptsFrom f MaxRetries (attempt + 1) - (attempt + 1)
        = (attemptsFrom f MaxRetries (attempt + 1) - (attempt + 2)) + 1 := by
      omega
    rw [hA, List.replicate_succ]
termination_by MaxRetries + 1 - attempt
decreasing_by simp only [not_or, not_le] at hc; omega

/-- C7: under the immediate scheduler, a RetryDelayed wrapper produces the
same step invocations and forwards the same Outcome as a Retry wrapper with
the same bound around the same step (its trace with scheduler events
removed is exactly the Retry wrapper's trace), and it invokes the scheduler
exactly once per retry — `attempts - 1` times, each with the wrapper's
delay. -/
theorem retry_delayed_refines_retry (f : Nat → Result T E)
    (tag MaxRetries DelayMs : Nat) (v : T) :
    (RetryDelayedHolder.call immediateSched MaxRetries DelayMs (attStep tag f)
          finalCB (Result.Ok v)).filter (fun e => !e.isSched)
      = RetryHolder.call MaxRetries (attStep tag f) finalCB (Result.Ok v)
    ∧ (RetryDelayedHolder.call immediateSched MaxRetries DelayMs (attStep tag f)
          finalCB (Result.Ok v)).filter (fun e => e.isSched)
      = List.replicate (attemptsFrom f MaxRetries 0 - 1)
          (Event.sched DelayMs) := by
  have hd : RetryDelayedHolder.call immediateSched MaxRetries DelayMs
        (attStep tag f) finalCB (Result.Ok v)
      = delayedTraceFrom tag DelayMs f MaxRetries 0
        ++ [Event.final (f (attemptsFrom f MaxRetries 0 - 1))] := by
    rw [RetryDelayedHolder.call]
    simp only [Result.is_err_Ok, Bool.false_eq_true, if_false]
    rw [run_step_delayed_trace]
    rfl
  constructor
  · rw [hd, List.filter_append, delayedTraceFrom_filter_not_sched]
    rw [RetryHolder.call]
    simp only [Result.is_err_Ok, Bool.false_eq_true, if_false]
    rw [run_step_trace]
    simp [finalCB]
  · rw [hd, List.filter_append, delayedTraceFrom_filter_sched]
    simp [finalCB]

/-! ## Step invocation shapes (C4) -/

/-- C4 fails as stated on the legacy header: `src/async.hpp`'s Direct
`Holder::call` invokes its step with only the continuation, so the step's
result cannot depend on the prior success Outcome — the wrapper behaves
identically on the distinct inputs `Ok 1` and `Ok 2`, whereas the
`src/include/async.hpp` Direct holder hands the step its input, which an
input-echoing step distinguishes. -/
theorem legacy_direct_drops_input :
    Smart.Holder.call constStep id (Result.Ok 1) = Smart.Holder.call constStep id (Result.Ok 2)
    ∧ Holder.call echoStep id (Result.Ok 1) ≠ Holder.call echoStep id (Result.Ok 2) := by
  exact ⟨rfl, by decide⟩

/-- C4 (amended): in `src/include/async.hpp` every wrapper invokes its step
with a continuation and an input — the prior Outcome for Direct and Catch
wrappers, the 0-based attempt indices for Retry and RetryDelayed wrappers —
while the legacy `src/async.hpp` Direct holder invokes its step with the
continuation alone, so its behavior is independent of the prior success
Outcome. -/
theorem wrapper_step_inputs (f : Result T E → Result T E)
    (fa : Nat → Result T E) (tag MaxRetries DelayMs : Nat)
    (k : Cont T E (Trace T E)) (r rerr : Result T E) (v : T)
    (legacyStep : Cont Nat Nat (Result Nat Nat) → Result Nat Nat)
    (k2 : Cont Nat Nat (Result Nat Nat)) (a b : Nat)
    (hr : r.is_err = false) (he : rerr.is_err = true) :
    Holder.call (resStep tag f) k r = Event.stepRes tag r :: k (f r)
    ∧ CatcherHolder.call (resStep tag f) k rerr
        = Event.stepRes tag rerr :: k (f rerr)
    ∧ RetryHolder.call MaxRetries (attStep tag fa) k (Result.Ok v)
        = (List.range' 0 (attemptsFrom fa MaxRetries 0)).map (Event.stepAtt tag)
          ++ k (fa (attemptsFrom fa MaxRetries 0 - 1))
    ∧ RetryDelayedHolder.call immediateSched MaxRetries DelayMs (attStep tag fa)
          k (Result.Ok v)
        = delayedTraceFrom tag DelayMs fa MaxRetries 0
          ++ k (fa (attemptsFrom fa MaxRetries 0 - 1))
    ∧ Smart.Holder.call legacyStep k2 (Result.Ok a)
        = Smart.Holder.call legacyStep k2 (Result.Ok b) := by
  refine ⟨?_, ?_, ?_, ?_, ?_⟩
  · simp [Holder.call, hr, resStep]
  · simp [CatcherHolder.call, he, resStep]
  · rw [RetryHolder.call]
    simp only [Result.is_err_Ok, Bool.false_eq_true, if_false]
    rw [run_step_trace]
    simp
  · rw [RetryDelayedHolder.call]
    simp only [Result.is_err_Ok, Bool.false_eq_true, if_false]
    rw [run_step_delayed_trace]
  · simp [Smart.Holder.call]

/-- Witness for the amended C4, at concrete steps, inputs and policy
parameters. -/
theorem wrapper_step_inputs_witness :
    (Result.Ok 3 : Result Nat Nat).is_err = false
    ∧ (Result.Err 7 : Result Nat Nat).is_err = true
    ∧ (Holder.call (resStep 4 recover0) finalCB (Result.Ok 3)
          = Event.stepRes 4 (Result.Ok 3) :: finalCB (recover0 (Result.Ok 3))
       ∧ CatcherHolder.call (resStep 4 recover0) finalCB (Result.Err 7)
          = Event.stepRes 4 (Result.Err 7) :: finalCB (recover0 (Result.Err 7))
       ∧ RetryHolder.call 2 (attStep 4 errAlways) finalCB (Result.Ok 0)
          = (List.range' 0 (attemptsFrom errAlways 2 0)).map (Event.stepAtt 4)
            ++ finalCB (errAlways (attemptsFrom errAlways 2 0 - 1))
       ∧ RetryDelayedHolder.call immediateSched 2 9 (attStep 4 errAlways)
             finalCB (Result.Ok 0)
          = delayedTraceFrom 4 9 errAlways 2 0
            ++ finalCB (errAlways (attemptsFrom errAlways 2 0 - 1))
       ∧ Smart.Holder.call constStep id (Result.Ok 1)
          = Smart.Holder.call constStep id (Result.Ok 2)) :=
  ⟨rfl, rfl,
   wrapper_step_inputs recover0 errAlways 4 2 9 finalCB
     (Result.Ok 3) (Result.Err 7) 0 constStep id 1 2 rfl rfl⟩

/-! ## Outcome states (C5) -/

/-- C5 fails as stated: `Result` is an aggregate of two independent
optionals, and the value a default construction produces — both fields
empty — satisfies neither `is_ok` nor `is_err`, so success and error are
not collectively exhaustive over all `Result` values. -/
theorem result_neither_state :
    (Result.mk none none : Result Nat Nat).is_ok = false
    ∧ (Result.mk none none : Result Nat Nat).is_err = false
    ∧ ¬ exclusiveExhaustive (Result.mk none none : Result Nat Nat).is_ok
        (Result.mk none none : Result Nat Nat).is_err := by
  decide

/-- C5 (amended): every `Result` built by the `Ok`/`Err` factories
satisfies exactly one of is-success/is-error, and for the value-less
specialization `Result<void,E>` exactly one holds for every value. -/
theorem result_factory_exclusive (v : T) (e : E) (rv : ResultVoid E) :
    exclusiveExhaustive (Result.Ok (E := E) v).is_ok (Result.Ok (E := E) v).is_err
    ∧ exclusiveExhaustive (Result.Err (T := T) e).is_ok (Result.Err (T := T) e).is_err
    ∧ exclusiveExhaustive rv.is_ok rv.is_err := by
  refine ⟨Or.inl ⟨rfl, rfl⟩, Or.inr ⟨rfl, rfl⟩, ?_⟩
  obtain ⟨err⟩ := rv
  cases err with
  | none => exact Or.inl ⟨rfl, rfl⟩
  | some e2 => exact Or.inr ⟨rfl, rfl⟩

/-! ## Catch wrapper (C6) -/

/-- C6: a Catch wrapper invokes its step iff the incoming Outcome is an
error — on a success input it forwards the Outcome to the continuation
unchanged without touching the step (for any step), and on an error input
it invokes the step with the failing Outcome and forwards the step's
recovered Outcome onward. -/
theorem catch_invokes_iff_error (step : StepType T E M)
    (f : Result T E → Result T E) (tag : Nat) (k : Cont T E M)
    (kt : Cont T E (Trace T E)) (r rerr : Result T E)
    (hr : r.is_err = false) (he : rerr.is_err = true) :
    CatcherHolder.call step k r = k r
    ∧ CatcherHolder.call (resStep tag f) kt rerr
        = Event.stepRes tag rerr :: kt (f rerr) := by
  constructor
  · simp [CatcherHolder.call, hr]
  · simp [CatcherHolder.call, he, resStep]

/-- Witness for C6 at concrete inputs: a success input passes through, an
error input is handed to the recovery step. -/
theorem catch_invokes_iff_error_witness :
    (Result.Ok 3 : Result Nat Nat).is_err = false
    ∧ (Result.Err 7 : Result Nat Nat).is_err = true
    ∧ (CatcherHolder.call echoStep id (Result.Ok 3) = id (Result.Ok 3)
       ∧ CatcherHolder.call (resStep 4 recover0) finalCB (Result.Err 7)
          = Event.stepRes 4 (Result.Err 7) :: finalCB (recover0 (Result.Err 7))) :=
  ⟨rfl, rfl,
   catch_invokes_iff_error echoStep recover0 4 id finalCB
     (Result.Ok 3) (Result.Err 7) rfl rfl⟩

/-! ## The terminal call (C8) -/

/-- C8: `finally` seeds the fold with the synthetic success Outcome
`Ok(T{})` — a success holding the declared starting type's
default-constructed value — and for a chain with zero wrappers the
terminal callback is invoked exactly once, with that Outcome. -/
theorem finally_seeds_default [Inhabited T] :
    (∀ (M : Type) (sched : SchedulerFunction M) (steps : List (Wrapper T E M))
        (k : Cont T E M),
        finallyRun sched steps k = call_steps sched steps k (Result.Ok default))
    ∧ (∀ (sched : SchedulerFunction (Trace T E)) (k : Cont T E (Trace T E)),
        finallyRun sched [] k = k (Result.Ok default))
    ∧ (∀ sched : SchedulerFunction (Trace T E),
        finallyRun sched [] finalCB
          = [Event.final (Result.Ok (default : T))]) :=
  ⟨fun _ _ _ _ => rfl, fun _ _ => rfl, fun _ => rfl⟩

/-! ## Declared types of the chain builder (C9) -/

/-- C9 fails as stated: in `src/include/async.hpp`, `then` returns
`AsyncChain<T, E, …>` with the old `T` — appending a step whose output
type differs from the declared value type leaves the declared value type
unchanged instead of setting it to the step's output type. -/
theorem then_keeps_value_type :
    (ChainSig.thenDirect (initChainSig Ty.int Ty.str) Ty.float).T = Ty.int
    ∧ Ty.int ≠ Ty.float := by
  decide

/-- C9 (amended): every append operation preserves the declared error type,
and `catchError` leaves the declared value type unchanged; but `then`,
`thenWithRetry` and `thenWithRetryDelayed` of `src/include/async.hpp` also
leave the declared value type unchanged (the step's output type never
enters the chain's type parameters), while their `src/async.hpp`
counterparts set it to the caller-supplied `NewT` template argument. -/
theorem append_type_bookkeeping (c : ChainSig) (stepOut NewT : Ty)
    (MaxRetries DelayMs : Nat) :
    ((c.thenDirect stepOut).E = c.E ∧ (c.thenDirect stepOut).T = c.T)
    ∧ ((c.thenWithRetry MaxRetries stepOut).E = c.E
       ∧ (c.thenWithRetry MaxRetries stepOut).T = c.T)
    ∧ ((c.thenWithRetryDelayed MaxRetries DelayMs stepOut).E = c.E
       ∧ (c.thenWithRetryDelayed MaxRetries DelayMs stepOut).T = c.T)
    ∧ (c.catchError.E = c.E ∧ c.catchError.T = c.T)
    ∧ ((c.thenSmart NewT).E = c.E ∧ (c.thenSmart NewT).T = NewT)
    ∧ ((c.thenWithRetrySmart MaxRetries NewT).E = c.E
       ∧ (c.thenWithRetrySmart MaxRetries NewT).T = NewT)
    ∧ ((c.thenWithRetryDelayedSmart MaxRetries DelayMs NewT).E = c.E
       ∧ (c.thenWithRetryDelayedSmart MaxRetries DelayMs NewT).T = NewT)
    ∧ (c.catchErrorSmart.E = c.E ∧ c.catchErrorSmart.T = c.T) :=
  ⟨⟨rfl, rfl⟩, ⟨rfl, rfl⟩, ⟨rfl, rfl⟩, ⟨rfl, rfl⟩, ⟨rfl, rfl⟩, ⟨rfl, rfl⟩,
   ⟨rfl, rfl⟩, ⟨rfl, rfl⟩⟩

/-! ## Scheduler registration (C10) -/

/-- C10: a second `setScheduler` call replaces the previously installed
scheduler regardless of what was installed before, and a RetryDelayed
wrapper submits each deferred retry to the scheduler installed at the
moment of submission: a step that re-registers the scheduler (state id
2) during attempt 0 causes the retry to be submitted to scheduler 2, not
to the scheduler (id 1) installed when the wrapper started. -/
theorem scheduler_replacement :
    (∀ (M : Type) (g : Option (SchedulerFunction M))
        (s1 s2 : SchedulerFunction M),
        setScheduler (setScheduler g s1) s2 = some s2)
    ∧ RetryDelayedHolder.call readingSched 3 50 switchingStep statefulFinal
        (Result.Ok 0) 1
      = [Event.stepAtt 0 0, Event.schedSubmit 2 50, Event.stepAtt 0 1,
         Event.final (Result.Ok 9)] := by
  refine ⟨fun _ _ _ _ => rfl, ?_⟩
  rw [RetryDelayedHolder.call]
  simp only [Result.is_err_Ok, Bool.false_eq_true, if_false]
  rw [RetryDelayedHolder.run_step]
  simp only [switchingStep, reduceIte, Result.is_ok_Err, Bool.false_eq_true,
    false_or, Nat.reduceLeDiff, dite_false, readingSched]
  rw [RetryDelayedHolder.run_step]
  simp [switchingStep, statefulFinal]

/-! ## Concrete instantiations of the remaining claim theorems -/

/-- Witness for C1 at a concrete two-step chain over `(Nat, Nat)`. -/
theorem direct_chain_terminal_once_witness :
    finallyRun immediateSched (directChain ([plus1] ++ [plus1])) finalCB
      = directTrace 0 ([plus1] ++ [plus1]) (Result.Ok default)
        ++ [Event.final (Result.Ok (plus1 (chainOutputs [plus1] (Result.Ok default))))]
    ∧ (finallyRun immediateSched (directChain ([plus1] ++ [plus1])) finalCB).filter
        Event.isFinal
      = [Event.final (Result.Ok (plus1 (chainOutputs [plus1] (Result.Ok default))))] :=
  direct_chain_terminal_once [plus1] plus1

/-- Witness for C3 at a concrete always-failing step with bound 2. -/
theorem retry_attempt_semantics_witness :
    RetryHolder.call 2 (attStep 5 errAlways) finalCB (Result.Ok 0)
      = (List.range (attemptsFrom errAlways 2 0)).map (Event.stepAtt 5)
        ++ [Event.final (errAlways (attemptsFrom errAlways 2 0 - 1))]
    ∧ 1 ≤ attemptsFrom errAlways 2 0
    ∧ attemptsFrom errAlways 2 0 ≤ 2 + 1
    ∧ ((List.range (attemptsFrom errAlways 2 0 - 1)).all
        fun j => !(errAlways j).is_ok) = true
    ∧ ((errAlways (attemptsFrom errAlways 2 0 - 1)).is_ok = true
       ∨ attemptsFrom errAlways 2 0 = 2 + 1) :=
  retry_attempt_semantics errAlways 5 2 0

/-- Witness for the amended C5 at concrete payloads. -/
theorem result_factory_exclusive_witness :
    exclusiveExhaustive (Result.Ok (T := Nat) (E := Nat) 1).is_ok
        (Result.Ok (T := Nat) (E := Nat) 1).is_err
    ∧ exclusiveExhaustive (Result.Err (T := Nat) (E := Nat) 2).is_ok
        (Result.Err (T := Nat) (E := Nat) 2).is_err
    ∧ exclusiveExhaustive (ResultVoid.Ok (E := Nat)).is_ok
        (ResultVoid.Ok (E := Nat)).is_err :=
  result_factory_exclusive 1 2 ResultVoid.Ok

/-- Witness for C7 at a concrete always-failing step with bound 2 and
delay 30. -/
theorem retry_delayed_refines_retry_witness :
    (RetryDelayedHolder.call immediateSched 2 30 (attStep 1 errAlways)
          finalCB (Result.Ok 0)).filter (fun e => !e.isSched)
      = RetryHolder.call 2 (attStep 1 errAlways) finalCB (Result.Ok 0)
    ∧ (RetryDelayedHolder.call immediateSched 2 30 (attStep 1 errAlways)
          finalCB (Result.Ok 0)).filter (fun e => e.isSched)
      = List.replicate (attemptsFrom errAlways 2 0 - 1) (Event.sched 30) :=
  retry_delayed_refines_retry errAlways 1 2 30 0

/-- Witness for C8 at the empty chain over `(Nat, Nat)`. -/
theorem finally_seeds_default_witness :
    finallyRun immediateSched ([] : List (Wrapper Nat Nat (Trace Nat Nat)))
        finalCB
      = [Event.final (Result.Ok 0)] :=
  finally_seeds_default.2.2 immediateSched

/-- Witness for the amended C9 at a concrete signature. -/
theorem append_type_bookkeeping_witness :
    (((initChainSig Ty.int Ty.str).thenDirect Ty.float).E = Ty.str
       ∧ ((initChainSig Ty.int Ty.str).thenDirect Ty.float).T = Ty.int)
    ∧ (((initChainSig Ty.int Ty.str).thenWithRetry 1 Ty.float).E = Ty.str
       ∧ ((initChainSig Ty.int Ty.str).thenWithRetry 1 Ty.float).T = Ty.int)
    ∧ (((initChainSig Ty.int Ty.str).thenWithRetryDelayed 1 2 Ty.float).E = Ty.str
       ∧ ((initChainSig Ty.int Ty.str).thenWithRetryDelayed 1 2 Ty.float).T = Ty.int)
    ∧ ((initChainSig Ty.int Ty.str).catchError.E = Ty.str
       ∧ (initChainSig Ty.int Ty.str).catchError.T = Ty.int)
    ∧ (((initChainSig Ty.int Ty.str).thenSmart Ty.float).E = Ty.str
       ∧ ((initChainSig Ty.int Ty.str).thenSmart Ty.float).T = Ty.float)
    ∧ (((initChainSig Ty.int Ty.str).thenWithRetrySmart 1 Ty.float).E = Ty.str
       ∧ ((initChainSig Ty.int Ty.str).thenWithRetrySmart 1 Ty.float).T = Ty.float)
    ∧ (((initChainSig Ty.int Ty.str).thenWithRetryDelayedSmart 1 2 Ty.float).E = Ty.str
       ∧ ((initChainSig Ty.int Ty.str).thenWithRetryDelayedSmart 1 2 Ty.float).T = Ty.float)
    ∧ ((initChainSig Ty.int Ty.str).catchErrorSmart.E = Ty.str
       ∧ (initChainSig Ty.int Ty.str).catchErrorSmart.T = Ty.int) :=
  append_type_bookkeeping (initChainSig Ty.int Ty.str) Ty.float Ty.float 1 2

/-- Witness for C10's replacement equation at a concrete scheduler pair. -/
theorem scheduler_replacement_witness :
    setScheduler
        (setScheduler (none : Option (SchedulerFunction (Trace Nat Nat)))
          immediateSched)
        immediateSched
      = some immediateSched :=
  scheduler_replacement.1 (Trace Nat Nat) none immediateSched immediateSched

end AsyncChainModel
